import Mathlib

/-!
Verification of the torchpack training-loop core
(`torchpack/callbacks/monitor.py` and `torchpack/train/trainer.py`):
a shallow embedding of the monitor data model and the trainer state machine,
with theorems about the lifecycle and metric-aggregation behaviour.
-/

/-- Exceptions raised by the Python code paths that we model explicitly. -/
inductive PyExc
  | indexError
  | typeError
  | assertionError
deriving DecidableEq, Repr

/-- Whether an `Except`-valued computation returned normally (no exception). -/
def isOkE {ε α : Type} : Except ε α → Bool
  | .ok _ => true
  | .error _ => false

/-! ## Scalar values (`Monitor.add_scalar`, monitor.py lines 27-33)

Python values that can be passed to `add_scalar`: numpy integers, numpy
floats, native ints, native floats, and a non-numeric object (`None`),
standing for any value on which `float(...)` raises `TypeError`. -/

inductive PyVal
  | npInt (n : ℤ)
  | npFloat (q : ℚ)
  | pyInt (n : ℤ)
  | pyFloat (q : ℚ)
  | pyNone
deriving DecidableEq, Repr

/-- The coercion performed by `Monitor.add_scalar` before calling the sink:
`isinstance(val, np.integer)` gives `val = int(val)` (exact), and
`isinstance(val, np.floating)` gives `val = float(val)`; every other value
is passed through unchanged. -/
def coerceScalar : PyVal → PyVal
  | .npInt n => .pyInt n
  | .npFloat q => .pyFloat q
  | v => v

/-- The numeric content of a value, if it has one. -/
def numericVal : PyVal → Option ℚ
  | .npInt n => some (n : ℚ)
  | .pyInt n => some (n : ℚ)
  | .npFloat q => some q
  | .pyFloat q => some q
  | .pyNone => none

/-- True for native Python values (not numpy-tagged). -/
def isNativeVal : PyVal → Bool
  | .npInt _ => false
  | .npFloat _ => false
  | _ => true

/-- True exactly for a native Python float. -/
def isPyFloat : PyVal → Bool
  | .pyFloat _ => true
  | _ => false

namespace Monitor

/-- Embedding of `Monitor.add_scalar(name, val)` (monitor.py lines 27-33):
the result is the value handed to the `_add_scalar` sink hook, or the
exception raised.  The body only performs the two `isinstance` coercions and
then calls `self._add_scalar(name, val)`; it cannot raise. -/
def add_scalar (v : PyVal) : Except PyExc PyVal :=
  .ok (coerceScalar v)

/-- The last element of a numpy shape (`val.shape[-1]`); shapes passed to it
are nonempty, so the default is never returned. -/
def lastDim : List ℕ → ℕ
  | [] => 0
  | [d] => d
  | _ :: rest => lastDim rest

/-- Embedding of `Monitor.add_image(name, val)` (monitor.py lines 38-51) at
the level of array shapes: `ndim == 2` inserts a batch and a channel axis;
`ndim == 3` with last dimension in `[1, 3, 4]` inserts a batch axis, and
otherwise appends a channel axis; then `assert val.ndim == 4` raises
`AssertionError` unless the resulting rank is 4.  The result is the shape
handed to the `_add_image` sink hook. -/
def add_image (s : List ℕ) : Except PyExc (List ℕ) :=
  let v :=
    if s.length = 2 then 1 :: (s ++ [1])
    else if s.length = 3 then
      (if lastDim s ∈ [1, 3, 4] then 1 :: s else s ++ [1])
    else s
  if v.length = 4 then .ok v else .error .assertionError

end Monitor

/-! ## The monitor group `Monitors` (monitor.py lines 63-127)

`Monitors.scalars` is a `defaultdict(list)` mapping a metric name to the
list of `(global_step, value)` pairs recorded for it; we embed it as an
insertion-ordered association list whose reads default to `[]`. -/

/-- The `scalars` cache of `Monitors`: name to recorded `(global_step, value)`
pairs. -/
def Cache := List (String × List (ℕ × ℚ))
deriving DecidableEq

/-- Reading `self.scalars[name]`: a `defaultdict(list)` yields `[]` for a key
that was never written. -/
def cacheGet : Cache → String → List (ℕ × ℚ)
  | [], _ => []
  | (k, v) :: rest, n => if k = n then v else cacheGet rest n

/-- The write `self.scalars[name].append(entry)`: appends to the existing
list for the key, or inserts the key with a one-element list. -/
def cacheAppend : Cache → String → ℕ × ℚ → Cache
  | [], n, e => [(n, [e])]
  | (k, v) :: rest, n, e =>
    if k = n then (k, v ++ [e]) :: rest else (k, v) :: cacheAppend rest n e

namespace Monitors

/-- How many member monitors of the group get their `add_scalar` invoked,
and whether an exception propagates out of the fan-out loop, given for each
member whether its handler raises.  The loop body in
`Monitors._add_scalar` (monitor.py lines 116-117) has no exception handler,
so the first raising member aborts the loop and the exception propagates. -/
def fanOut : List Bool → ℕ × Bool
  | [] => (0, false)
  | raises :: rest =>
    if raises then (1, true)
    else ((fanOut rest).1 + 1, (fanOut rest).2)

/-- Result of one `Monitors._add_scalar` dispatch: the cache afterwards,
the number of member monitors that were invoked, and whether an exception
propagated out of the call. -/
structure FanOutRes where
  cache : Cache
  notified : ℕ
  raised : Bool
deriving DecidableEq

/-- Embedding of `Monitors._add_scalar(name, val)` (monitor.py lines
114-117): first `self.scalars[name].append((self.trainer.global_step, val))`,
then the fan-out loop over `self.monitors`; `members` records, for each
member monitor in order, whether its `add_scalar` raises. -/
def add_scalar (members : List Bool) (gs : ℕ) (name : String) (v : ℚ)
    (c : Cache) : FanOutRes :=
  let c := cacheAppend c name (gs, v)
  ⟨c, (fanOut members).1, (fanOut members).2⟩

/-- Embedding of `Monitors.get_latest(name)` (monitor.py lines 123-124):
`self.scalars[name][-1][1]`; on a never-recorded name the defaultdict
yields `[]` and the `[-1]` indexing raises `IndexError`. -/
def get_latest (c : Cache) (n : String) : Except PyExc ℚ :=
  match (cacheGet c n).getLast? with
  | none => .error .indexError
  | some (_, v) => .ok v

/-- Embedding of `Monitors.get_history(name)` (monitor.py lines 126-127):
`return self.scalars[name]`; this line cannot raise — on a never-recorded
name the defaultdict yields `[]`, which is returned. -/
def get_history (c : Cache) (n : String) : Except PyExc (List (ℕ × ℚ)) :=
  .ok (cacheGet c n)

end Monitors

/-- One event in a sequence of operations against the monitor group:
an `add_scalar` call (at the trainer's current `global_step`), or a
trigger (`trigger_step` / `trigger_epoch` / `trigger`) fan-out, which in
`Monitors` only forwards to the members and never touches `scalars`. -/
inductive MOp
  | add_scalar (gs : ℕ) (name : String) (v : ℚ)
  | trigger (gs : ℕ)
deriving DecidableEq, Repr

/-- The `global_step` at which an operation happens. -/
def MOp.step : MOp → ℕ
  | .add_scalar gs _ _ => gs
  | .trigger gs => gs

/-- Whether an operation records the given metric name. -/
def MOp.records (name : String) : MOp → Bool
  | .add_scalar _ n _ => n == name
  | .trigger _ => false

/-- Running a sequence of operations against the `Monitors.scalars` cache:
`add_scalar` appends `(global_step, value)` for its name
(monitor.py line 115); a trigger leaves the cache unchanged
(monitor.py lines 102-112 only forward to the member monitors). -/
def Monitors.run : List MOp → Cache → Cache
  | [], c => c
  | MOp.add_scalar gs n v :: rest, c => Monitors.run rest (cacheAppend c n (gs, v))
  | MOp.trigger _ :: rest, c => Monitors.run rest c

/-- The `(global_step, value)` entry an operation contributes to the history
of `name`, if any. -/
def addEntryFor (name : String) : MOp → Option (ℕ × ℚ)
  | .add_scalar gs n v => if n = name then some (gs, v) else none
  | .trigger _ => none

/-- Modelled from the spec (testable property for C3), not from the code:
the history the spec predicts for `name` — one entry per trigger that finds
a pending value for `name` (last write wins between triggers), stamped with
the trigger's step. -/
def specClaimedHistory (name : String) : List MOp → Option ℚ → List (ℕ × ℚ)
  | [], _ => []
  | MOp.add_scalar _ n v :: rest, pending =>
    specClaimedHistory name rest (if n = name then some v else pending)
  | MOp.trigger gs :: rest, pending =>
    match pending with
    | some v => (gs, v) :: specClaimedHistory name rest none
    | none => specClaimedHistory name rest none

/-! ## The JSON stat writer `JSONWriter` (monitor.py lines 169-273) -/

/-- One record of the persisted stat history: a JSON object holding the
flushed scalar entries plus the `epoch_num` / `global_step` stamps (absent
when the record was written without them, which the resume logic treats as
an undeterminable epoch). -/
structure StatEntry where
  data : List (String × ℚ)
  epoch_num : Option ℤ
  global_step : Option ℤ
deriving DecidableEq, Repr

/-- The mutable state of a `JSONWriter`: the pending buffer `_stat_now`
(a dict, name to value, last write wins), the in-memory history `_stats`,
and the content of the persisted `stats.json` file (none when absent). -/
structure JWState where
  stat_now : List (String × ℚ)
  stats : List StatEntry
  file : Option (List StatEntry)
deriving DecidableEq, Repr

/-- The dict write `self._stat_now[name] = v`: replace the value of an
existing key, or insert the key at the end. -/
def assocSet : List (String × ℚ) → String → ℚ → List (String × ℚ)
  | [], k, v => [(k, v)]
  | (k', v') :: rest, k, v =>
    if k' = k then (k, v) :: rest else (k', v') :: assocSet rest k v

namespace JSONWriter

/-- Embedding of `JSONWriter._trigger()` (monitor.py lines 252-270), given
the trainer's current `epoch_num` and `global_step`: if the pending buffer
is empty this is a no-op; otherwise the buffer is stamped with
`epoch_num` / `global_step`, appended to `_stats`, the buffer is cleared,
and the whole history is persisted (write to a temp file, then
`shutil.move` onto `stats.json`). -/
def trigger (epoch_num global_step : ℤ) (s : JWState) : JWState :=
  if s.stat_now = [] then s
  else
    let stats := s.stats ++ [⟨s.stat_now, some epoch_num, some global_step⟩]
    ⟨[], stats, some stats⟩

/-- Embedding of `JSONWriter._add_scalar(name, val)` (monitor.py lines
272-273): `self._stat_now[name] = float(val)`; the value here is already
numeric, so we record its rational content. -/
def add_scalar (name : String) (v : ℚ) (s : JWState) : JWState :=
  { s with stat_now := assocSet s.stat_now name v }

/-- The `float(val)` conversion used by `JSONWriter._add_scalar`: yields the
numeric content of the value, raising `TypeError` on a non-numeric one. -/
def float_of_val (v : PyVal) : Except PyExc ℚ :=
  match numericVal v with
  | some q => .ok q
  | none => .error .typeError

/-- Embedding of the resume logic of `JSONWriter._before_train`
(monitor.py lines 208-242): given the content of an existing `stats.json`
(none when the file is absent) and the trainer's declared starting epoch,
returns the initial in-memory history `_stats` and, when the old file was
moved aside to a timestamped backup name, the content preserved under that
backup.  Reading the last record's epoch is wrapped in `try/except`, so a
missing record or a missing `epoch_num` key makes the epoch undeterminable
(`None`), which resolves to appending. -/
def before_train (existing : Option (List StatEntry)) (starting_epoch : ℤ) :
    List StatEntry × Option (List StatEntry) :=
  match existing with
  | none => ([], none)
  | some stats =>
    let epoch : Option ℤ :=
      match stats.getLast? with
      | none => none
      | some last =>
        match last.epoch_num with
        | none => none
        | some e => some (e + 1)
    match epoch with
    | none => (stats, none)
    | some ep =>
      if ep = starting_epoch then (stats, none) else ([], some stats)

/-- The per-step trigger guard of `JSONWriter._trigger_step` (monitor.py
lines 244-247): the flush `_trigger()` runs iff
`self.trainer.local_step != self.trainer.steps_per_epoch - 1`. -/
def trigger_step_fires (local_step steps_per_epoch : ℕ) : Bool :=
  local_step != steps_per_epoch - 1

end JSONWriter

namespace ScalarPrinter

/-- The per-step trigger guard of `ScalarPrinter._trigger_step` (monitor.py
lines 312-320): with step-level printing enabled, `_trigger()` runs when
`local_step != steps_per_epoch - 1`, and otherwise only when epoch-level
printing is disabled. -/
def trigger_step_fires (enable_step enable_epoch : Bool)
    (local_step steps_per_epoch : ℕ) : Bool :=
  if enable_step then
    if local_step != steps_per_epoch - 1 then true
    else !enable_epoch
  else false

end ScalarPrinter

/-! ## The trainer state machine `Trainer.train` (trainer.py lines 60-139)

The loop is embedded as explicit state passing: counters are threaded
through, every hook invocation is recorded as an event, and an exception
raised by a hook (or by the step computation) aborts the enclosing
computation, carrying the signal and the trace so far.  `StopTraining` is
caught by the `except` clause at the top level; any other exception
propagates; the `finally` clause invokes `after_train` on every exit. -/

/-- A signal raised by a callback hook or by the step computation:
the `StopTraining` control signal, or any other exception. -/
inductive Sig
  | stop
  | err
deriving DecidableEq, Repr

/-- How a call to `Trainer.train` ends: normal completion, early stop
(`StopTraining` caught at the top level), or an exception propagating out. -/
inductive Outcome
  | finished
  | stopped
  | failed
deriving DecidableEq, Repr

/-- The trainer's run-state counters. -/
structure Counters where
  epoch_num : ℕ
  local_step : ℕ
  global_step : ℕ
deriving DecidableEq, Repr

/-- The lifecycle hook points of `Trainer.train`, in the order the source
invokes them. -/
inductive Hk
  | setTrainer
  | beforeTrain
  | beforeEpoch
  | beforeStep
  | runStep
  | afterStep
  | triggerStep
  | afterEpoch
  | triggerEpoch
  | afterTrain
deriving DecidableEq, Repr

/-- One recorded hook invocation: the hook point together with the counter
values at the moment of the call. -/
structure Ev where
  hk : Hk
  cnt : Counters
deriving DecidableEq, Repr

/-- A behaviour of the registered callbacks and of the step computation:
for each hook invocation, whether it returns normally, raises
`StopTraining`, or raises some other exception. -/
def Behavior := Ev → Option Sig

namespace Trainer

/-- Invoke one hook: record the event, then either continue with the trace
or abort with the raised signal, the current counters and the trace. -/
def call (b : Behavior) (h : Hk) (c : Counters) (tr : List Ev) :
    Except (Sig × Counters × List Ev) (List Ev) :=
  match b ⟨h, c⟩ with
  | none => .ok (tr ++ [⟨h, c⟩])
  | some s => .error (s, c, tr ++ [⟨h, c⟩])

/-- Sequencing of statements in the `try` block: a raised exception aborts
the rest of the block and propagates. -/
def seqL (r : Except (Sig × Counters × List Ev) (List Ev))
    (k : List Ev → Except (Sig × Counters × List Ev) (Counters × List Ev)) :
    Except (Sig × Counters × List Ev) (Counters × List Ev) :=
  match r with
  | .error x => .error x
  | .ok tr => k tr

/-- Sequencing after a sub-computation that also updates the counters. -/
def seqP (r : Except (Sig × Counters × List Ev) (Counters × List Ev))
    (k : Counters → List Ev → Except (Sig × Counters × List Ev) (Counters × List Ev)) :
    Except (Sig × Counters × List Ev) (Counters × List Ev) :=
  match r with
  | .error x => .error x
  | .ok (c, tr) => k c tr

/-- The counter update at the top of the `for feed_dict in self.dataflow`
body (trainer.py lines 103-104): `self.local_step += 1` and
`self.global_step += 1`. -/
def bumpStep (c : Counters) : Counters :=
  ⟨c.epoch_num, c.local_step + 1, c.global_step + 1⟩

/-- The counter update at the top of the `while` body (trainer.py lines
93-94): `self.epoch_num += 1` and `self.local_step = 0`. -/
def bumpEpoch (c : Counters) : Counters :=
  ⟨c.epoch_num + 1, 0, c.global_step⟩

/-- The hook sequence of one loop iteration after the counter bump
(trainer.py lines 106-110): `before_step`, `run_step`, `after_step`,
`trigger_step`. -/
def stepHooks (b : Behavior) (c : Counters) (tr : List Ev) :
    Except (Sig × Counters × List Ev) (Counters × List Ev) :=
  seqL (call b .beforeStep c tr) fun tr =>
  seqL (call b .runStep c tr) fun tr =>
  seqL (call b .afterStep c tr) fun tr =>
  seqL (call b .triggerStep c tr) fun tr => .ok (c, tr)

/-- One full `for` iteration: bump the counters, then run the step hooks. -/
def stepIter (b : Behavior) (c : Counters) (tr : List Ev) :
    Except (Sig × Counters × List Ev) (Counters × List Ev) :=
  stepHooks b (bumpStep c) tr

/-- The `for feed_dict in self.dataflow` loop (trainer.py lines 102-110),
by the number of remaining batches (`steps_per_epoch` at epoch start). -/
def stepsLoop (b : Behavior) : ℕ → Counters → List Ev →
    Except (Sig × Counters × List Ev) (Counters × List Ev)
  | 0, c, tr => .ok (c, tr)
  | n + 1, c, tr => seqP (stepIter b c tr) (stepsLoop b n)

/-- The body of one `while` iteration after the epoch counter bump
(trainer.py lines 100-123): `before_epoch`, the step loop, `after_epoch`,
then `trigger_epoch` — gated by `eval_interval` when one is given. -/
def epochHooks (b : Behavior) (steps : ℕ) (ei : Option ℕ) (c : Counters)
    (tr : List Ev) : Except (Sig × Counters × List Ev) (Counters × List Ev) :=
  seqL (call b .beforeEpoch c tr) fun tr =>
  seqP (stepsLoop b steps c tr) fun c tr =>
  seqL (call b .afterEpoch c tr) fun tr =>
  match ei with
  | some k =>
    if c.epoch_num % k = 0 then
      seqL (call b .triggerEpoch c tr) fun tr => .ok (c, tr)
    else .ok (c, tr)
  | none => seqL (call b .triggerEpoch c tr) fun tr => .ok (c, tr)

/-- One full `while` iteration: bump the epoch counters, then run the epoch
body. -/
def epochIter (b : Behavior) (steps : ℕ) (ei : Option ℕ) (c : Counters)
    (tr : List Ev) : Except (Sig × Counters × List Ev) (Counters × List Ev) :=
  epochHooks b steps ei (bumpEpoch c) tr

/-- The `while self.epoch_num < self.num_epochs` loop (trainer.py lines
92-123), by the number of remaining epochs. -/
def epochsLoop (b : Behavior) (steps : ℕ) (ei : Option ℕ) : ℕ → Counters →
    List Ev → Except (Sig × Counters × List Ev) (Counters × List Ev)
  | 0, c, tr => .ok (c, tr)
  | n + 1, c, tr => seqP (epochIter b steps ei c tr) (epochsLoop b steps ei n)

/-- The `try` block of `Trainer.train` (trainer.py lines 81-135):
`set_trainer` on the callbacks, `before_train`, then the epoch loop,
starting from `epoch_num = 0`, `global_step = 0`. -/
def trainBody (b : Behavior) (numEpochs steps : ℕ) (ei : Option ℕ) :
    Except (Sig × Counters × List Ev) (Counters × List Ev) :=
  seqL (call b .setTrainer ⟨0, 0, 0⟩ []) fun tr =>
  seqL (call b .beforeTrain ⟨0, 0, 0⟩ tr) fun tr =>
  epochsLoop b steps ei numEpochs ⟨0, 0, 0⟩ tr

/-- Embedding of `Trainer.train` (trainer.py lines 60-139): run the `try`
block; `except StopTraining` turns a stop signal into a normal return
(outcome `stopped`); any other exception propagates (outcome `failed`);
the `finally` clause invokes `after_train` exactly once on every path. -/
def train (b : Behavior) (numEpochs steps : ℕ) (ei : Option ℕ) :
    Outcome × List Ev :=
  match trainBody b numEpochs steps ei with
  | .ok (c, tr) => (.finished, tr ++ [⟨.afterTrain, c⟩])
  | .error (.stop, c, tr) => (.stopped, tr ++ [⟨.afterTrain, c⟩])
  | .error (.err, c, tr) => (.failed, tr ++ [⟨.afterTrain, c⟩])

/-- The `local_step` values the trainer exposes during the `trigger_step`
hook invocations of a trace, in order. -/
def triggerStepLocals (tr : List Ev) : List ℕ :=
  tr.filterMap fun e => if e.hk = Hk.triggerStep then some e.cnt.local_step else none

end Trainer

/-- A behaviour in which no hook ever raises. -/
def bNone : Behavior := fun _ => none

/-- A behaviour raising `StopTraining` from the step computation of the
third step of the second epoch, and nowhere else. -/
def bStopEx : Behavior := fun e =>
  if e.hk == Hk.runStep && e.cnt.epoch_num == 2 && e.cnt.local_step == 3 then
    some Sig.stop
  else none

/-! ## Trainer checkpoint state (`Trainer.load_state_dict`, trainer.py
lines 222-227) -/

/-- A Python dict keyed by strings, with values of an arbitrary type,
embedded as an association list (Python dict keys are unique, so the
first-match read below is faithful). -/
def PyDict (α : Type) := List (String × α)

/-- The dict read `d[k]` / `k in d`. -/
def dictLookup {α : Type} : PyDict α → String → Option α
  | [], _ => none
  | (k', v) :: rest, k => if k' = k then some v else dictLookup rest k

/-- Removal of a key from a dict. -/
def dictErase {α : Type} : PyDict α → String → PyDict α
  | [], _ => []
  | (k', v) :: rest, k =>
    if k' = k then dictErase rest k else (k', v) :: dictErase rest k

/-- The dict method `d.pop(k)` (no default): returns the value and removes
the key from the dict, or raises `KeyError` (here: `none`) when the key is
absent. -/
def dictPop {α : Type} (d : PyDict α) (k : String) : Option (α × PyDict α) :=
  match dictLookup d k with
  | none => none
  | some v => some (v, dictErase d k)

/-- The trainer attributes set by `load_state_dict`: the three counters plus
the state handed to `self.callbacks.load_state_dict`. -/
structure LoadedCounters (α : Type) where
  epoch_num : α
  local_step : α
  global_step : α
  callbacksState : α

/-- Embedding of `Trainer.load_state_dict(state_dict)` (trainer.py lines
222-227): pops `epoch_num`, `local_step`, `global_step` and `callbacks`
from the caller's dict in that order, setting the trainer attributes from
the popped values; the residual dict is what `self._load_state_dict`
receives (the caller's dict object, mutated).  A missing key raises
`KeyError` (here: `none`). -/
def Trainer.load_state_dict {α : Type} (d : PyDict α) :
    Option (LoadedCounters α × PyDict α) :=
  match dictPop d "epoch_num" with
  | none => none
  | some (e, d) =>
    match dictPop d "local_step" with
    | none => none
    | some (l, d) =>
      match dictPop d "global_step" with
      | none => none
      | some (g, d) =>
        match dictPop d "callbacks" with
        | none => none
        | some (cb, d) => some (⟨e, l, g, cb⟩, d)

/-! ## Trace-shape predicates for the trainer proofs -/

/-- A list of events containing no `after_train` invocation. -/
def NoAT (u : List Ev) : Prop := ∀ e ∈ u, e.hk ≠ Hk.afterTrain

/-- Shape of a trace-valued partial result of the `try` block: on success
the input trace was extended by events none of which is `after_train`; on an
exception the extension ends exactly at the event whose hook raised the
carried signal. -/
def ShapedL (b : Behavior) (tr : List Ev) :
    Except (Sig × Counters × List Ev) (List Ev) → Prop
  | .ok tr' => ∃ u, tr' = tr ++ u ∧ NoAT u
  | .error (s, _, tr') =>
    ∃ us e, tr' = tr ++ us ++ [e] ∧ b e = some s ∧ NoAT (us ++ [e])

/-- The same shape property for results that also carry counters. -/
def ShapedP (b : Behavior) (tr : List Ev) :
    Except (Sig × Counters × List Ev) (Counters × List Ev) → Prop
  | .ok (_, tr') => ∃ u, tr' = tr ++ u ∧ NoAT u
  | .error (s, _, tr') =>
    ∃ us e, tr' = tr ++ us ++ [e] ∧ b e = some s ∧ NoAT (us ++ [e])

/-! ## Helper lemmas -/

theorem noAT_nil : NoAT [] := by
  intro e he
  cases he

theorem noAT_append {u v : List Ev} (hu : NoAT u) (hv : NoAT v) :
    NoAT (u ++ v) := by
  intro e he
  rcases List.mem_append.mp he with h | h
  · exact hu e h
  · exact hv e h

theorem cacheGet_cacheAppend : ∀ (c : Cache) (n m : String) (e : ℕ × ℚ),
    cacheGet (cacheAppend c n e) m =
      if n = m then cacheGet c m ++ [e] else cacheGet c m
  | [], n, m, e => by
    by_cases h : n = m <;> simp [cacheAppend, cacheGet, h]
  | (k, v) :: rest, n, m, e => by
    simp only [cacheAppend]
    by_cases hk : k = n
    · subst hk
      by_cases hm : k = m <;> simp [cacheGet, hm]
    · rw [if_neg hk]
      by_cases hkm : k = m
      · have hnm : ¬ n = m := fun h => hk (hkm.trans h.symm)
        simp [cacheGet, hkm, hnm]
      · by_cases hnm : n = m
        · subst hnm
          simp [cacheGet, hkm, cacheGet_cacheAppend rest n n e]
        · simp [cacheGet, hkm, hnm, cacheGet_cacheAppend rest n m e]

theorem run_history (name : String) : ∀ (ops : List MOp) (c : Cache),
    cacheGet (Monitors.run ops c) name =
      cacheGet c name ++ ops.filterMap (addEntryFor name)
  | [], c => by simp [Monitors.run]
  | MOp.add_scalar gs n v :: rest, c => by
    by_cases h : n = name <;>
      simp [Monitors.run, List.filterMap_cons, addEntryFor, h,
        run_history name rest, cacheGet_cacheAppend]
  | MOp.trigger gs :: rest, c => by
    simp [Monitors.run, List.filterMap_cons, addEntryFor, run_history name rest]

theorem steps_sublist (name : String) : ∀ ops : List MOp,
    ((ops.filterMap (addEntryFor name)).map Prod.fst).Sublist (ops.map MOp.step)
  | [] => .slnil
  | op :: rest => by
    cases op with
    | add_scalar gs n v =>
      by_cases h : n = name
      · simpa [addEntryFor, h, MOp.step] using (steps_sublist name rest).cons₂ gs
      · simpa [addEntryFor, h, MOp.step] using (steps_sublist name rest).cons gs
    | trigger gs =>
      simpa [addEntryFor, MOp.step] using (steps_sublist name rest).cons gs

theorem fanOut_fst : ∀ members : List Bool,
    (Monitors.fanOut members).1 =
      min ((members.takeWhile (fun r => !r)).length + 1) members.length
  | [] => by simp [Monitors.fanOut]
  | r :: rest => by
    cases r with
    | true => simp [Monitors.fanOut, List.takeWhile]
    | false =>
      simp [Monitors.fanOut, List.takeWhile, fanOut_fst rest]
      omega

theorem fanOut_snd : ∀ members : List Bool,
    (Monitors.fanOut members).2 = members.any id
  | [] => by simp [Monitors.fanOut]
  | r :: rest => by
    cases r <;> simp [Monitors.fanOut, fanOut_snd rest]

theorem dictLookup_erase_self {α : Type} : ∀ (d : PyDict α) (k : String),
    dictLookup (dictErase d k) k = none
  | [], k => rfl
  | (k', v) :: rest, k => by
    by_cases h : k' = k <;>
      simp [dictErase, dictLookup, h, dictLookup_erase_self rest k]

theorem dictLookup_erase_other {α : Type} :
    ∀ (d : PyDict α) (k k' : String), k' ≠ k →
    dictLookup (dictErase d k) k' = dictLookup d k'
  | [], k, k', _ => rfl
  | (k₀, v) :: rest, k, k', hne => by
    have hkk' : k ≠ k' := fun h => hne h.symm
    by_cases h0 : k₀ = k
    · simp [dictErase, dictLookup, h0, hkk', dictLookup_erase_other rest k k' hne]
    · by_cases h0' : k₀ = k' <;>
        simp [dictErase, dictLookup, h0, h0', hne,
          dictLookup_erase_other rest k k' hne]

theorem countP_afterTrain (u : List Ev) (hu : NoAT u) (c : Counters) :
    (u ++ [(⟨Hk.afterTrain, c⟩ : Ev)]).countP (fun e => e.hk == Hk.afterTrain) = 1 := by
  rw [List.countP_append]
  have h0 : u.countP (fun e => e.hk == Hk.afterTrain) = 0 := by
    rw [List.countP_eq_zero]
    intro e he
    simp [hu e he]
  simp [h0, List.countP_cons]

theorem shapedP_mono {b : Behavior} {tr : List Ev} {u : List Ev}
    (hu : NoAT u) {r : Except (Sig × Counters × List Ev) (Counters × List Ev)}
    (h : ShapedP b (tr ++ u) r) : ShapedP b tr r := by
  cases r with
  | ok p =>
    obtain ⟨c, tr'⟩ := p
    obtain ⟨w, rfl, hw⟩ := h
    exact ⟨u ++ w, by rw [List.append_assoc], noAT_append hu hw⟩
  | error x =>
    obtain ⟨s, c, tr'⟩ := x
    obtain ⟨us, e, rfl, hbe, hne⟩ := h
    refine ⟨u ++ us, e, by simp [List.append_assoc], hbe, ?_⟩
    have := noAT_append hu hne
    simpa [List.append_assoc] using this

theorem shapedL_call (b : Behavior) (h : Hk) (c : Counters) (tr : List Ev)
    (hh : h ≠ Hk.afterTrain) : ShapedL b tr (Trainer.call b h c tr) := by
  unfold Trainer.call
  cases hb : b ⟨h, c⟩ with
  | none =>
    exact ⟨[⟨h, c⟩], rfl, by intro e he; simp at he; subst he; exact hh⟩
  | some s =>
    refine ⟨[], ⟨h, c⟩, by simp, hb, ?_⟩
    intro e he
    simp at he
    subst he
    exact hh

theorem shapedP_seqL {b : Behavior} {tr : List Ev}
    {r : Except (Sig × Counters × List Ev) (List Ev)}
    {k : List Ev → Except (Sig × Counters × List Ev) (Counters × List Ev)}
    (h1 : ShapedL b tr r) (h2 : ∀ tr', ShapedP b tr' (k tr')) :
    ShapedP b tr (Trainer.seqL r k) := by
  cases r with
  | ok tr' =>
    obtain ⟨u, rfl, hu⟩ := h1
    exact shapedP_mono hu (h2 (tr ++ u))
  | error x =>
    obtain ⟨s, c, tr'⟩ := x
    exact h1

theorem shapedP_seqP {b : Behavior} {tr : List Ev}
    {r : Except (Sig × Counters × List Ev) (Counters × List Ev)}
    {k : Counters → List Ev → Except (Sig × Counters × List Ev) (Counters × List Ev)}
    (h1 : ShapedP b tr r) (h2 : ∀ c' tr', ShapedP b tr' (k c' tr')) :
    ShapedP b tr (Trainer.seqP r k) := by
  cases r with
  | ok p =>
    obtain ⟨c', tr'⟩ := p
    obtain ⟨u, rfl, hu⟩ := h1
    exact shapedP_mono hu (h2 c' (tr ++ u))
  | error x =>
    obtain ⟨s, c, tr'⟩ := x
    exact h1

theorem shapedP_pure (b : Behavior) (c : Counters) (tr : List Ev) :
    ShapedP b tr (Except.ok (c, tr)) :=
  ⟨[], by simp, noAT_nil⟩

theorem shapedP_stepHooks (b : Behavior) (c : Counters) (tr : List Ev) :
    ShapedP b tr (Trainer.stepHooks b c tr) := by
  unfold Trainer.stepHooks
  refine shapedP_seqL (shapedL_call b _ c tr (by simp)) fun tr₁ => ?_
  refine shapedP_seqL (shapedL_call b _ c tr₁ (by simp)) fun tr₂ => ?_
  refine shapedP_seqL (shapedL_call b _ c tr₂ (by simp)) fun tr₃ => ?_
  exact shapedP_seqL (shapedL_call b _ c tr₃ (by simp)) fun tr₄ =>
    shapedP_pure b c tr₄

theorem shapedP_stepsLoop (b : Behavior) :
    ∀ (n : ℕ) (c : Counters) (tr : List Ev),
    ShapedP b tr (Trainer.stepsLoop b n c tr)
  | 0, c, tr => shapedP_pure b c tr
  | n + 1, c, tr => by
    unfold Trainer.stepsLoop Trainer.stepIter
    exact shapedP_seqP (shapedP_stepHooks b _ tr) fun c' tr' =>
      shapedP_stepsLoop b n c' tr'

theorem shapedP_epochHooks (b : Behavior) (steps : ℕ) (ei : Option ℕ)
    (c : Counters) (tr : List Ev) :
    ShapedP b tr (Trainer.epochHooks b steps ei c tr) := by
  unfold Trainer.epochHooks
  refine shapedP_seqL (shapedL_call b _ c tr (by simp)) fun tr₁ => ?_
  refine shapedP_seqP (shapedP_stepsLoop b steps c tr₁) fun c₁ tr₂ => ?_
  refine shapedP_seqL (shapedL_call b _ c₁ tr₂ (by simp)) fun tr₃ => ?_
  cases ei with
  | none =>
    exact shapedP_seqL (shapedL_call b _ c₁ tr₃ (by simp)) fun tr₄ =>
      shapedP_pure b c₁ tr₄
  | some k =>
    by_cases hk : c₁.epoch_num % k = 0
    · simp only [hk, if_true]
      exact shapedP_seqL (shapedL_call b _ c₁ tr₃ (by simp)) fun tr₄ =>
        shapedP_pure b c₁ tr₄
    · simp only [hk, if_false]
      exact shapedP_pure b c₁ tr₃

theorem shapedP_epochsLoop (b : Behavior) (steps : ℕ) (ei : Option ℕ) :
    ∀ (n : ℕ) (c : Counters) (tr : List Ev),
    ShapedP b tr (Trainer.epochsLoop b steps ei n c tr)
  | 0, c, tr => shapedP_pure b c tr
  | n + 1, c, tr => by
    unfold Trainer.epochsLoop Trainer.epochIter
    exact shapedP_seqP (shapedP_epochHooks b steps ei _ tr) fun c' tr' =>
      shapedP_epochsLoop b steps ei n c' tr'

theorem shapedP_trainBody (b : Behavior) (numEpochs steps : ℕ)
    (ei : Option ℕ) : ShapedP b [] (Trainer.trainBody b numEpochs steps ei) := by
  unfold Trainer.trainBody
  refine shapedP_seqL (shapedL_call b _ _ [] (by simp)) fun tr₁ => ?_
  refine shapedP_seqL (shapedL_call b _ _ tr₁ (by simp)) fun tr₂ => ?_
  exact shapedP_epochsLoop b steps ei numEpochs ⟨0, 0, 0⟩ tr₂

/-! ## Claim theorems -/

/-- C2: for every behaviour of the callbacks and the step computation, and
every run configuration, `Trainer.train` invokes the `after_train` hook
exactly once (it is the last event of the trace, on normal completion,
early stop and unhandled failure alike); and whenever the run ends in the
`stopped` outcome — the `StopTraining` signal caught exactly once at the
top level — the trace ends immediately at the raising hook invocation
followed only by `after_train`: no further steps or epochs execute. -/
theorem c2_stop_training_and_after_train (b : Behavior) (n s : ℕ)
    (ei : Option ℕ) :
    ((Trainer.train b n s ei).2.countP (fun e => e.hk == Hk.afterTrain) = 1) ∧
    (∃ u c, (Trainer.train b n s ei).2 = u ++ [(⟨Hk.afterTrain, c⟩ : Ev)]) ∧
    ((Trainer.train b n s ei).1 = Outcome.stopped →
      ∃ u e c, (Trainer.train b n s ei).2 = u ++ [e, (⟨Hk.afterTrain, c⟩ : Ev)] ∧
        b e = some Sig.stop) := by
  have hs := shapedP_trainBody b n s ei
  unfold Trainer.train
  cases hb : Trainer.trainBody b n s ei with
  | ok p =>
    obtain ⟨c, tr⟩ := p
    rw [hb] at hs
    obtain ⟨u, htr, hu⟩ := hs
    rw [List.nil_append] at htr
    subst htr
    refine ⟨countP_afterTrain tr hu c, ⟨tr, c, rfl⟩, ?_⟩
    intro hout
    exact absurd hout (by simp)
  | error x =>
    obtain ⟨sig, c, tr⟩ := x
    rw [hb] at hs
    obtain ⟨us, e, htr, hbe, hne⟩ := hs
    rw [List.nil_append] at htr
    subst htr
    have hlist : (us ++ [e]) ++ [(⟨Hk.afterTrain, c⟩ : Ev)] =
        us ++ [e, (⟨Hk.afterTrain, c⟩ : Ev)] := by simp
    cases sig with
    | stop =>
      refine ⟨countP_afterTrain (us ++ [e]) hne c, ⟨us ++ [e], c, rfl⟩, ?_⟩
      intro _
      exact ⟨us, e, c, hlist, hbe⟩
    | err =>
      refine ⟨countP_afterTrain (us ++ [e]) hne c, ⟨us ++ [e], c, rfl⟩, ?_⟩
      intro hout
      exact absurd hout (by simp)

/-- C2 witness: with a behaviour that raises `StopTraining` from the step
computation of step 3 of epoch 2 (in a 4-epoch, 5-step-per-epoch run),
the run ends in the `stopped` outcome and the trace ends at the raising
`run_step` invocation followed only by `after_train`. -/
theorem c2_stop_training_and_after_train_witness :
    (Trainer.train bStopEx 4 5 none).1 = Outcome.stopped ∧
    (∃ u e c, (Trainer.train bStopEx 4 5 none).2 =
        u ++ [e, (⟨Hk.afterTrain, c⟩ : Ev)] ∧ bStopEx e = some Sig.stop) :=
  ⟨by decide, (c2_stop_training_and_after_train bStopEx 4 5 none).2.2 (by decide)⟩

/-- C1 (evidence for the divergence): taking the trainer embedding with
`steps_per_epoch = 2` and no raising hooks, the `local_step` values exposed
during the `trigger_step` invocations of an epoch are `[1, 2]` — the
trainer increments `local_step` before each step, exactly as the claim
notes; consequently the guard of `JSONWriter._trigger_step`
(`local_step != steps_per_epoch - 1`) fires the flush at the LAST step of
the epoch (`local_step = 2`) and skips the second-to-last step
(`local_step = 1`), and the guard of `ScalarPrinter._trigger_step` with
both step- and epoch-level printing enabled behaves the same way —
contrary to the claim (and to the code comments), which want the last step
deferred to the epoch-level trigger and every non-last step flushed. -/
theorem c1_step_trigger_fires_on_last_step :
    Trainer.triggerStepLocals (Trainer.train bNone 1 2 none).2 = [1, 2] ∧
    JSONWriter.trigger_step_fires 2 2 = true ∧
    JSONWriter.trigger_step_fires 1 2 = false ∧
    ScalarPrinter.trigger_step_fires true true 2 2 = true ∧
    ScalarPrinter.trigger_step_fires true true 1 2 = false := by
  decide

/-- C3 counterexample: a single `AddScalar` at step 1 with no trigger at
all already puts an entry into the history — `GetHistory` does not return
"one entry per step at which a trigger occurred with a pending value"
(which here would be the empty history): the cache is written at add time,
not at trigger time. -/
theorem c3_history_counterexample :
    Monitors.get_history (Monitors.run [MOp.add_scalar 1 "a" 5] []) "a" =
      Except.ok [(1, 5)] ∧
    specClaimedHistory "a" [MOp.add_scalar 1 "a" 5] none = [] ∧
    Monitors.get_history (Monitors.run [MOp.add_scalar 1 "a" 5] []) "a" ≠
      Except.ok (specClaimedHistory "a" [MOp.add_scalar 1 "a" 5] none) := by
  refine ⟨rfl, rfl, ?_⟩
  intro h
  have h2 : ([(1, 5)] : List (ℕ × ℚ)) = [] := by injection h
  exact absurd h2 (by decide)

/-- C3 amended: for every sequence of `AddScalar` calls interleaved with
triggers, `GetHistory(name)` returns exactly one entry per
`AddScalar(name, ·)` call — stamped with the `global_step` current at that
call, in call order — and triggers leave the cache untouched; the entries
are in non-decreasing step order whenever the operations happen at
non-decreasing global steps (as they do in a run). -/
theorem c3_history_one_entry_per_add (ops : List MOp) (name : String) :
    Monitors.get_history (Monitors.run ops []) name =
      Except.ok (ops.filterMap (addEntryFor name)) ∧
    ((ops.map MOp.step).Pairwise (· ≤ ·) →
      ((ops.filterMap (addEntryFor name)).map Prod.fst).Pairwise (· ≤ ·)) := by
  constructor
  · have h := run_history name ops []
    simp only [Monitors.get_history, h]
    rfl
  · intro hmono
    exact hmono.sublist (steps_sublist name ops)

/-- C3 witness: a concrete interleaving with two `AddScalar` calls for
metric a and a trigger between them, at non-decreasing steps. -/
theorem c3_history_one_entry_per_add_witness :
    Monitors.get_history
      (Monitors.run
        [MOp.add_scalar 1 "a" 2, MOp.trigger 3, MOp.add_scalar 5 "a" 7] [])
      "a" = Except.ok [(1, 2), (5, 7)] ∧
    (([(1, 2), (5, 7)] : List (ℕ × ℚ)).map Prod.fst).Pairwise (· ≤ ·) := by
  refine ⟨(c3_history_one_entry_per_add
    [MOp.add_scalar 1 "a" 2, MOp.trigger 3, MOp.add_scalar 5 "a" 7] "a").1, ?_⟩
  exact (c3_history_one_entry_per_add
    [MOp.add_scalar 1 "a" 2, MOp.trigger 3, MOp.add_scalar 5 "a" 7] "a").2
    (by decide)

/-- C4 counterexample: an integer input is handed to the sink as an
integer, not normalized to a float; and a non-numeric input does not fail
inside `add_scalar` — it is handed through to the sink without any
`InvalidMetricType`-style error. -/
theorem c4_add_scalar_counterexample :
    Monitor.add_scalar (PyVal.pyInt 3) = Except.ok (PyVal.pyInt 3) ∧
    isPyFloat (PyVal.pyInt 3) = false ∧
    Monitor.add_scalar PyVal.pyNone = Except.ok PyVal.pyNone ∧
    isOkE (Monitor.add_scalar PyVal.pyNone) = true :=
  ⟨rfl, rfl, rfl, rfl⟩

/-- C4 amended: `add_scalar` coerces numpy integers to exact native ints
and numpy floats to native floats, hands every value — including
non-numeric ones — to the sink unchanged otherwise and never raises; the
coercion preserves the numeric content exactly and never hands a
numpy-tagged value to the sink; a non-numeric value fails only later, at
the `float(val)` conversion of the `JSONWriter` sink. -/
theorem c4_add_scalar_coercion (v : PyVal) :
    Monitor.add_scalar v = Except.ok (coerceScalar v) ∧
    numericVal (coerceScalar v) = numericVal v ∧
    isNativeVal (coerceScalar v) = true ∧
    isOkE (JSONWriter.float_of_val (coerceScalar v)) = (numericVal v).isSome := by
  cases v <;>
    simp [Monitor.add_scalar, coerceScalar, numericVal, isNativeVal,
      JSONWriter.float_of_val, isOkE]

/-- C5 counterexample: with two member monitors of which the first raises,
the second is never notified (only 1 of 2 members invoked) and the
exception propagates out of the fan-out — dispatch does not "log and
continue"; the shared cache still received the entry, because the cache
write precedes the fan-out. -/
theorem c5_fanout_counterexample :
    (Monitors.add_scalar [true, false] 1 "a" 5 []).notified = 1 ∧
    (1 : ℕ) ≠ 2 ∧
    (Monitors.add_scalar [true, false] 1 "a" 5 []).raised = true ∧
    (Monitors.add_scalar [true, false] 1 "a" 5 []).cache = [("a", [(1, 5)])] := by
  decide

/-- C5 amended: the `(global_step, value)` entry is appended to the shared
cache before any member monitor is notified, so the cache receives the
entry whatever the members do (the failure cannot corrupt it); but a
member failure is not caught: the members before and including the first
raising one are invoked, the rest are skipped, and the exception
propagates iff some member raises. -/
theorem c5_cache_written_before_fanout (members : List Bool) (gs : ℕ)
    (name : String) (v : ℚ) (c : Cache) :
    (Monitors.add_scalar members gs name v c).cache = cacheAppend c name (gs, v) ∧
    (Monitors.add_scalar members gs name v c).notified =
      min ((members.takeWhile (fun r => !r)).length + 1) members.length ∧
    (Monitors.add_scalar members gs name v c).raised = members.any id := by
  exact ⟨rfl, fanOut_fst members, fanOut_snd members⟩

/-- C6 counterexample: a rank-4 input does not fail — it passes the
`assert val.ndim == 4` unchanged and is handed to the sink, although the
claim says every rank other than 2 and 3 fails with `InvalidImageShape`. -/
theorem c6_add_image_counterexample :
    Monitor.add_image [2, 3, 4, 5] = Except.ok [2, 3, 4, 5] ∧
    isOkE (Monitor.add_image [2, 3, 4, 5]) = true :=
  ⟨rfl, rfl⟩

/-- C6 amended: `add_image` reshapes a rank-2 `(H,W)` input to `(1,H,W,1)`;
a rank-3 `(H,W,C)` input with `C` in `{1,3,4}` to `(1,H,W,C)`; every other
rank-3 input, treated as `(N,H,W)`, to `(N,H,W,1)`; passes a rank-4 input
through unchanged; and fails with the shape assertion exactly on inputs of
any rank other than 2, 3 and 4. -/
theorem c6_add_image_shapes (a b c : ℕ) (s : List ℕ) :
    Monitor.add_image [a, b] = Except.ok [1, a, b, 1] ∧
    (c ∈ [1, 3, 4] → Monitor.add_image [a, b, c] = Except.ok [1, a, b, c]) ∧
    (c ∉ [1, 3, 4] → Monitor.add_image [a, b, c] = Except.ok [a, b, c, 1]) ∧
    (s.length = 4 → Monitor.add_image s = Except.ok s) ∧
    (s.length ≠ 2 → s.length ≠ 3 → s.length ≠ 4 →
      Monitor.add_image s = Except.error PyExc.assertionError) := by
  refine ⟨rfl, ?_, ?_, ?_, ?_⟩
  · intro hc
    simp [Monitor.add_image, Monitor.lastDim, hc]
  · intro hc
    simp [Monitor.add_image, Monitor.lastDim, hc]
  · intro h4
    simp [Monitor.add_image, h4]
  · intro h2 h3 h4
    simp [Monitor.add_image, h2, h3, h4]

/-- C6 witness: the reshaping rules evaluated at the concrete shapes used
by the spec's examples, plus a rank-1 failure. -/
theorem c6_add_image_shapes_witness :
    Monitor.add_image [5, 6] = Except.ok [1, 5, 6, 1] ∧
    Monitor.add_image [5, 6, 3] = Except.ok [1, 5, 6, 3] ∧
    Monitor.add_image [5, 6, 7] = Except.ok [5, 6, 7, 1] ∧
    Monitor.add_image [9, 9, 9, 9] = Except.ok [9, 9, 9, 9] ∧
    Monitor.add_image [7] = Except.error PyExc.assertionError :=
  ⟨(c6_add_image_shapes 5 6 3 []).1,
   (c6_add_image_shapes 5 6 3 []).2.1 (by decide),
   (c6_add_image_shapes 5 6 7 []).2.2.1 (by decide),
   (c6_add_image_shapes 5 6 3 [9, 9, 9, 9]).2.2.2.1 (by decide),
   (c6_add_image_shapes 5 6 3 [7]).2.2.2.2 (by decide) (by decide) (by decide)⟩

/-- C7: `JSONWriter._before_train` resume logic — with no persisted file
the history starts empty; with a persisted history whose last recorded
epoch is undeterminable (no record, or no `epoch_num` in the last record)
or whose last epoch `E` satisfies `E + 1 = starting_epoch`, the writer
appends to the existing history and the old file is not moved; otherwise
the old file is moved aside with its content preserved under the backup
name and the history starts empty.  The embedding is a total function: the
mismatch path warns and backs up, it never raises. -/
theorem c7_resume_append_or_backup (stats : List StatEntry)
    (last : StatEntry) (E st : ℤ) :
    (JSONWriter.before_train none st = ([], none)) ∧
    (JSONWriter.before_train (some []) st = ([], none)) ∧
    (stats.getLast? = some last → last.epoch_num = none →
      JSONWriter.before_train (some stats) st = (stats, none)) ∧
    (stats.getLast? = some last → last.epoch_num = some E → E + 1 = st →
      JSONWriter.before_train (some stats) st = (stats, none)) ∧
    (stats.getLast? = some last → last.epoch_num = some E → E + 1 ≠ st →
      JSONWriter.before_train (some stats) st = ([], some stats)) := by
  refine ⟨rfl, rfl, ?_, ?_, ?_⟩
  · intro hl he
    simp [JSONWriter.before_train, hl, he]
  · intro hl he hst
    simp [JSONWriter.before_train, hl, he, hst]
  · intro hl he hst
    simp [JSONWriter.before_train, hl, he, hst]

/-- C7 witness: a persisted history ending at epoch 4 is appended to when
the declared starting epoch is 5, backed up (content preserved) when it is
7; a history whose last record has no epoch stamp is appended to. -/
theorem c7_resume_append_or_backup_witness :
    JSONWriter.before_train (some [⟨[("loss", 1)], some 4, some 100⟩]) 5 =
      ([⟨[("loss", 1)], some 4, some 100⟩], none) ∧
    JSONWriter.before_train (some [⟨[("loss", 1)], some 4, some 100⟩]) 7 =
      ([], some [⟨[("loss", 1)], some 4, some 100⟩]) ∧
    JSONWriter.before_train (some [⟨[("loss", 1)], none, none⟩]) 7 =
      ([⟨[("loss", 1)], none, none⟩], none) :=
  ⟨(c7_resume_append_or_backup [⟨[("loss", 1)], some 4, some 100⟩]
      ⟨[("loss", 1)], some 4, some 100⟩ 4 5).2.2.2.1 rfl rfl (by decide),
   (c7_resume_append_or_backup [⟨[("loss", 1)], some 4, some 100⟩]
      ⟨[("loss", 1)], some 4, some 100⟩ 4 7).2.2.2.2 rfl rfl (by decide),
   (c7_resume_append_or_backup [⟨[("loss", 1)], none, none⟩]
      ⟨[("loss", 1)], none, none⟩ 0 7).2.2.1 rfl rfl⟩

/-- C8: `JSONWriter._trigger` is a no-op when the pending buffer is empty;
when it is non-empty it stamps the buffer with `epoch_num` / `global_step`,
appends it to the history, clears the buffer and persists the whole
history; therefore a second call — with any counter values — right after a
first one (no intervening `add_scalar`) changes neither the persisted file
nor the in-memory history: `_trigger` is idempotent. -/
theorem c8_trigger_idempotent (en gs en' gs' : ℤ) (s : JWState) :
    (s.stat_now = [] → JSONWriter.trigger en gs s = s) ∧
    (s.stat_now ≠ [] → JSONWriter.trigger en gs s =
      ⟨[], s.stats ++ [⟨s.stat_now, some en, some gs⟩],
        some (s.stats ++ [⟨s.stat_now, some en, some gs⟩])⟩) ∧
    JSONWriter.trigger en' gs' (JSONWriter.trigger en gs s) =
      JSONWriter.trigger en gs s := by
  by_cases h : s.stat_now = []
  · exact ⟨fun _ => by simp [JSONWriter.trigger, h],
      fun hn => absurd h hn, by simp [JSONWriter.trigger, h]⟩
  · exact ⟨fun he => absurd he h,
      fun _ => by simp [JSONWriter.trigger, h], by simp [JSONWriter.trigger, h]⟩

/-- C8 witness: a writer state with one pending scalar is flushed into a
stamped history record, and a second trigger right after leaves everything
unchanged. -/
theorem c8_trigger_idempotent_witness :
    (JWState.mk [("loss", 5)] [] none).stat_now ≠ [] ∧
    JSONWriter.trigger 1 10 ⟨[("loss", 5)], [], none⟩ =
      ⟨[], [⟨[("loss", 5)], some 1, some 10⟩],
        some [⟨[("loss", 5)], some 1, some 10⟩]⟩ ∧
    JSONWriter.trigger 2 20 (JSONWriter.trigger 1 10 ⟨[("loss", 5)], [], none⟩) =
      JSONWriter.trigger 1 10 ⟨[("loss", 5)], [], none⟩ :=
  ⟨by decide,
   (c8_trigger_idempotent 1 10 2 20 ⟨[("loss", 5)], [], none⟩).2.1 (by decide),
   (c8_trigger_idempotent 1 10 2 20 ⟨[("loss", 5)], [], none⟩).2.2⟩

/-- C9 counterexample: on a fresh monitor group (no `AddScalar` ever), a
`GetHistory` query for an unrecorded name does not fail — the defaultdict
yields `[]`, which is returned as a normal (non-raising) result, contrary
to the claim that it fails with `UnknownMetric`. -/
theorem c9_get_history_counterexample :
    Monitors.get_history (Monitors.run [] []) "x" = Except.ok [] ∧
    isOkE (Monitors.get_history (Monitors.run [] []) "x") = true :=
  ⟨rfl, rfl⟩

/-- C9 amended: for every metric name never recorded by an `AddScalar` in
the operation sequence, `GetLatest` fails (the `[-1]` indexing of the
empty default list raises `IndexError`), but `GetHistory` returns the
empty history without failing. -/
theorem c9_unknown_metric (ops : List MOp) (name : String)
    (h : ops.all (fun op => !MOp.records name op) = true) :
    Monitors.get_latest (Monitors.run ops []) name =
      Except.error PyExc.indexError ∧
    Monitors.get_history (Monitors.run ops []) name = Except.ok [] := by
  have hfm : ops.filterMap (addEntryFor name) = [] := by
    rw [List.filterMap_eq_nil_iff]
    intro op hop
    have hrec := List.all_eq_true.mp h op hop
    cases op with
    | add_scalar gs n v =>
      simp [MOp.records] at hrec
      simp [addEntryFor, hrec]
    | trigger gs => rfl
  have hget : cacheGet (Monitors.run ops []) name = [] := by
    rw [run_history name ops []]
    simp [cacheGet, hfm]
  constructor
  · simp [Monitors.get_latest, hget]
  · simp [Monitors.get_history, hget]

/-- C9 witness: a run that records only metric b leaves metric a
unrecorded: `GetLatest` of a fails with the index error, `GetHistory` of a
returns the empty history. -/
theorem c9_unknown_metric_witness :
    Monitors.get_latest
      (Monitors.run [MOp.add_scalar 1 "b" 2, MOp.trigger 3] []) "a" =
      Except.error PyExc.indexError ∧
    Monitors.get_history
      (Monitors.run [MOp.add_scalar 1 "b" 2, MOp.trigger 3] []) "a" =
      Except.ok [] :=
  c9_unknown_metric [MOp.add_scalar 1 "b" 2, MOp.trigger 3] "a" (by decide)

/-- C10: whenever `Trainer.load_state_dict(d)` succeeds, the caller's dict
itself has been mutated: it no longer contains the keys `epoch_num`,
`local_step`, `global_step` and `callbacks` (they were removed via `pop`),
the trainer's counters and the callbacks state are set from the popped
values, and every other key of the dict is untouched. -/
theorem c10_load_state_dict_pops {α : Type} (d : PyDict α)
    (c : LoadedCounters α) (d' : PyDict α)
    (h : Trainer.load_state_dict d = some (c, d')) :
    dictLookup d' "epoch_num" = none ∧
    dictLookup d' "local_step" = none ∧
    dictLookup d' "global_step" = none ∧
    dictLookup d' "callbacks" = none ∧
    dictLookup d "epoch_num" = some c.epoch_num ∧
    dictLookup d "local_step" = some c.local_step ∧
    dictLookup d "global_step" = some c.global_step ∧
    dictLookup d "callbacks" = some c.callbacksState ∧
    (∀ k, k ≠ "epoch_num" → k ≠ "local_step" → k ≠ "global_step" →
      k ≠ "callbacks" → dictLookup d' k = dictLookup d k) := by
  unfold Trainer.load_state_dict dictPop at h
  cases h1 : dictLookup d "epoch_num" with
  | none => rw [h1] at h; exact absurd h (by simp)
  | some e =>
    rw [h1] at h
    simp only at h
    cases h2 : dictLookup (dictErase d "epoch_num") "local_step" with
    | none => rw [h2] at h; exact absurd h (by simp)
    | some l =>
      rw [h2] at h
      simp only at h
      cases h3 : dictLookup (dictErase (dictErase d "epoch_num") "local_step")
          "global_step" with
      | none => rw [h3] at h; exact absurd h (by simp)
      | some g =>
        rw [h3] at h
        simp only at h
        cases h4 : dictLookup (dictErase (dictErase (dictErase d "epoch_num")
            "local_step") "global_step") "callbacks" with
        | none => rw [h4] at h; exact absurd h (by simp)
        | some cb =>
          rw [h4] at h
          simp only [Option.some.injEq, Prod.mk.injEq] at h
          obtain ⟨hc, hd⟩ := h
          subst hc
          subst hd
          refine ⟨?_, ?_, ?_, ?_, ?_, ?_, ?_, ?_, ?_⟩
          · rw [dictLookup_erase_other _ _ _ (by decide),
              dictLookup_erase_other _ _ _ (by decide),
              dictLookup_erase_other _ _ _ (by decide),
              dictLookup_erase_self]
          · rw [dictLookup_erase_other _ _ _ (by decide),
              dictLookup_erase_other _ _ _ (by decide),
              dictLookup_erase_self]
          · rw [dictLookup_erase_other _ _ _ (by decide), dictLookup_erase_self]
          · rw [dictLookup_erase_self]
          · exact h1 ▸ rfl
          · rw [← dictLookup_erase_other d "epoch_num" "local_step" (by decide)]
            exact h2
          · rw [← dictLookup_erase_other d "epoch_num" "global_step" (by decide),
              ← dictLookup_erase_other _ "local_step" "global_step" (by decide)]
            exact h3
          · rw [← dictLookup_erase_other d "epoch_num" "callbacks" (by decide),
              ← dictLookup_erase_other _ "local_step" "callbacks" (by decide),
              ← dictLookup_erase_other _ "global_step" "callbacks" (by decide)]
            exact h4
          · intro k hk1 hk2 hk3 hk4
            rw [dictLookup_erase_other _ _ _ hk4,
              dictLookup_erase_other _ _ _ hk3,
              dictLookup_erase_other _ _ _ hk2,
              dictLookup_erase_other _ _ _ hk1]

/-- C10 witness: loading a concrete checkpoint dict removes exactly the
four consumed keys, sets the counters from their values, and preserves the
unrelated key. -/
theorem c10_load_state_dict_pops_witness :
    Trainer.load_state_dict
      ([("epoch_num", (3 : ℤ)), ("local_step", 0), ("global_step", 30),
        ("callbacks", 99), ("model", 7)] : PyDict ℤ) =
      some (⟨3, 0, 30, 99⟩, [("model", 7)]) ∧
    dictLookup ([("model", (7 : ℤ))] : PyDict ℤ) "epoch_num" = none ∧
    dictLookup ([("model", (7 : ℤ))] : PyDict ℤ) "model" = some 7 :=
  ⟨rfl,
   (c10_load_state_dict_pops
      ([("epoch_num", (3 : ℤ)), ("local_step", 0), ("global_step", 30),
        ("callbacks", 99), ("model", 7)] : PyDict ℤ)
      ⟨3, 0, 30, 99⟩ [("model", 7)] rfl).1,
   (c10_load_state_dict_pops
      ([("epoch_num", (3 : ℤ)), ("local_step", 0), ("global_step", 30),
        ("callbacks", 99), ("model", 7)] : PyDict ℤ)
      ⟨3, 0, 30, 99⟩ [("model", 7)] rfl).2.2.2.2.2.2.2.2 "model"
      (by decide) (by decide) (by decide) (by decide)⟩
